import Mathlib

/-!
Verification of the technical-indicator and recommendation engine of the
AI-Stock-Guru repository (the `MLStockPredictor` class).

Modelling conventions (shallow embedding):
* JavaScript numbers are modelled by `JSNum`: an exact rational, `nan`,
  `inf` (+Infinity) or `ninf` (-Infinity).  Arithmetic follows the
  JavaScript special-value rules, with the finite part idealized as exact
  rational arithmetic.  JavaScript's `undefined` (out-of-bounds array read,
  missing `?.` field) behaves, in every context this code uses it
  (arithmetic, `<`-style comparisons, `isNaN`, `isFinite`, truthiness),
  exactly like `NaN`, so out-of-bounds reads are modelled as `nan`.
* `Math.tanh` and `Math.sqrt` are modelled by parameter functions
  `th sq : ℚ → ℚ` applied to the finite part (with the JavaScript
  special-value behaviour at `nan`/`±Infinity` fixed); no property of the
  claims depends on their numeric values, so all theorems hold for every
  choice of `th` and `sq`.
* `Math.random()` is modelled by a parameter `r : ℚ` (one value per call of
  `predictNextDay`; the backtest loop and the per-symbol recommendation
  loop draw `rand i` for the i-th call).
-/

namespace StockGuru

/-- A JavaScript number: exact rational, `NaN`, `+Infinity` or `-Infinity`. -/
inductive JSNum where
  | num (q : ℚ)
  | nan
  | inf
  | ninf
deriving DecidableEq, Repr

namespace JSNum

/-- JavaScript `isNaN`. -/
def isNaN : JSNum → Bool
  | nan => true
  | _ => false

/-- JavaScript `isFinite`. -/
def isFinite : JSNum → Bool
  | num _ => true
  | _ => false

/-- JavaScript truthiness of a number: `0` and `NaN` are falsy. -/
def truthy : JSNum → Bool
  | num q => decide (q ≠ 0)
  | nan => false
  | inf => true
  | ninf => true

/-- JavaScript unary minus. -/
def neg : JSNum → JSNum
  | num q => num (-q)
  | nan => nan
  | inf => ninf
  | ninf => inf

/-- JavaScript `+`. -/
def add : JSNum → JSNum → JSNum
  | nan, _ => nan
  | _, nan => nan
  | num a, num b => num (a + b)
  | num _, inf => inf
  | num _, ninf => ninf
  | inf, num _ => inf
  | inf, inf => inf
  | inf, ninf => nan
  | ninf, num _ => ninf
  | ninf, inf => nan
  | ninf, ninf => ninf

/-- JavaScript `-`. -/
def sub (a b : JSNum) : JSNum := add a (neg b)

/-- JavaScript `*`. -/
def mul : JSNum → JSNum → JSNum
  | nan, _ => nan
  | _, nan => nan
  | num a, num b => num (a * b)
  | num a, inf => if 0 < a then inf else if a < 0 then ninf else nan
  | num a, ninf => if 0 < a then ninf else if a < 0 then inf else nan
  | inf, num b => if 0 < b then inf else if b < 0 then ninf else nan
  | ninf, num b => if 0 < b then ninf else if b < 0 then inf else nan
  | inf, inf => inf
  | inf, ninf => ninf
  | ninf, inf => ninf
  | ninf, ninf => inf

/-- JavaScript `/` (division by zero gives signed infinity, `0/0` gives `NaN`). -/
def div : JSNum → JSNum → JSNum
  | nan, _ => nan
  | _, nan => nan
  | num a, num b =>
      if b = 0 then (if 0 < a then inf else if a < 0 then ninf else nan)
      else num (a / b)
  | num _, inf => num 0
  | num _, ninf => num 0
  | inf, num b => if b < 0 then ninf else inf
  | ninf, num b => if b < 0 then inf else ninf
  | inf, inf => nan
  | inf, ninf => nan
  | ninf, inf => nan
  | ninf, ninf => nan

/-- JavaScript `<` (any comparison involving `NaN` is false). -/
def lt : JSNum → JSNum → Bool
  | nan, _ => false
  | _, nan => false
  | num a, num b => decide (a < b)
  | num _, inf => true
  | num _, ninf => false
  | inf, _ => false
  | ninf, ninf => false
  | ninf, _ => true

/-- JavaScript `<=` (any comparison involving `NaN` is false). -/
def le : JSNum → JSNum → Bool
  | nan, _ => false
  | _, nan => false
  | num a, num b => decide (a ≤ b)
  | num _, inf => true
  | num _, ninf => false
  | inf, inf => true
  | inf, _ => false
  | ninf, _ => true

/-- JavaScript `Math.abs`. -/
def abs : JSNum → JSNum
  | num q => num |q|
  | nan => nan
  | inf => inf
  | ninf => inf

/-- JavaScript `Math.max` of two values (`NaN` propagates). -/
def max : JSNum → JSNum → JSNum
  | nan, _ => nan
  | _, nan => nan
  | a, b => if lt a b then b else a

/-- JavaScript `Math.min` of two values (`NaN` propagates). -/
def min : JSNum → JSNum → JSNum
  | nan, _ => nan
  | _, nan => nan
  | a, b => if lt b a then b else a

/-- JavaScript `Math.pow (x, 2)`. -/
def pow2 (x : JSNum) : JSNum := mul x x

/-- JavaScript `a || b` on numbers: `b` when `a` is falsy (`0` or `NaN`). -/
def orElse (a b : JSNum) : JSNum := if truthy a then a else b

/-- JavaScript `Math.sqrt`, with the finite part given by the parameter `sq`. -/
def sqrtJ (sq : ℚ → ℚ) : JSNum → JSNum
  | num q => if q < 0 then nan else num (sq q)
  | nan => nan
  | inf => inf
  | ninf => nan

/-- JavaScript `Math.tanh`, with the finite part given by the parameter `th`. -/
def tanhJ (th : ℚ → ℚ) : JSNum → JSNum
  | num q => num (th q)
  | nan => nan
  | inf => num 1
  | ninf => num (-1)

end JSNum

/-- JavaScript array read `arr[i]`: out of bounds gives `undefined`, which in
every use in this code behaves like `NaN`. -/
def jget (l : List JSNum) (i : ℕ) : JSNum := l.getD i .nan

/-- `arr.reduce((a, b) => a + b, 0)`. -/
def sumJ (l : List JSNum) : JSNum := l.foldl JSNum.add (.num 0)

/-- `arr.slice(s, e)` for non-negative `s ≤ e`. -/
def jslice (l : List JSNum) (s e : ℕ) : List JSNum := (l.take e).drop s

/-- `arr.slice(-k)` for `k ≥ 1`: the last `k` elements (all of them when the
array is shorter). -/
def sliceLast {α : Type} (l : List α) (k : ℕ) : List α := l.drop (l.length - k)

/-- `calculateMovingAverage(data, window)`: warm-up indices (`i < window-1`)
pass the raw value through; afterwards the mean of the trailing `window`
values. -/
def calculateMovingAverage (data : List JSNum) (window : ℕ) : List JSNum :=
  (List.range data.length).map fun i =>
    if i < window - 1 then jget data i
    else JSNum.div (sumJ (jslice data (i + 1 - window) (i + 1))) (.num (window : ℚ))

/-- The per-step gains array of `calculateRSI` (`change > 0 ? change : 0`,
where `change = prices[i+1] - prices[i]`). -/
def rsiGains (prices : List JSNum) : List JSNum :=
  (List.range (prices.length - 1)).map fun i =>
    let change := JSNum.sub (jget prices (i + 1)) (jget prices i)
    if JSNum.lt (.num 0) change then change else .num 0

/-- The per-step losses array of `calculateRSI`
(`change < 0 ? Math.abs(change) : 0`). -/
def rsiLosses (prices : List JSNum) : List JSNum :=
  (List.range (prices.length - 1)).map fun i =>
    let change := JSNum.sub (jget prices (i + 1)) (jget prices i)
    if JSNum.lt change (.num 0) then JSNum.abs change else .num 0

/-- `calculateRSI(prices, period)`: one entry per gains/losses index (so one
fewer than `prices`); warm-up indices give the neutral `50`. -/
def calculateRSI (prices : List JSNum) (period : ℕ) : List JSNum :=
  let gains := rsiGains prices
  let losses := rsiLosses prices
  (List.range gains.length).map fun i =>
    if i < period - 1 then .num 50
    else
      let avgGain := JSNum.div (sumJ (jslice gains (i + 1 - period) (i + 1))) (.num (period : ℚ))
      let avgLoss := JSNum.div (sumJ (jslice losses (i + 1 - period) (i + 1))) (.num (period : ℚ))
      let rs := JSNum.div avgGain (JSNum.orElse avgLoss (.num 0.01))
      JSNum.sub (.num 100) (JSNum.div (.num 100) (JSNum.add (.num 1) rs))

/-- The recursive tail of `calculateEMA`:
`ema[i] = prices[i]*m + ema[i-1]*(1-m)`. -/
def emaGo (m : ℚ) (prev : JSNum) : List JSNum → List JSNum
  | [] => []
  | p :: rest =>
      let e := JSNum.add (JSNum.mul p (.num m)) (JSNum.mul prev (.num (1 - m)))
      e :: emaGo m e rest

/-- `calculateEMA(prices, period)`: seeded with `prices[0]` (so the output has
one element even for empty input, faithful to `const ema = [prices[0]]`). -/
def calculateEMA (prices : List JSNum) (period : ℕ) : List JSNum :=
  let multiplier : ℚ := 2 / ((period : ℚ) + 1)
  jget prices 0 :: emaGo multiplier (jget prices 0) (prices.drop 1)

/-- The three arrays returned by `calculateMACD`. -/
structure MACDResult where
  macd : List JSNum
  signal : List JSNum
  histogram : List JSNum
deriving DecidableEq, Repr

/-- `calculateMACD(prices)`. -/
def calculateMACD (prices : List JSNum) : MACDResult :=
  let ema12 := calculateEMA prices 12
  let ema26 := calculateEMA prices 26
  let macdLine := (List.range ema12.length).map fun i =>
    JSNum.sub (jget ema12 i) (jget ema26 i)
  let signalLine := calculateEMA macdLine 9
  let histogram := (List.range macdLine.length).map fun i =>
    JSNum.sub (jget macdLine i) (jget signalLine i)
  ⟨macdLine, signalLine, histogram⟩

/-- One Bollinger band entry `{ upper, middle, lower }`. -/
structure Band where
  upper : JSNum
  middle : JSNum
  lower : JSNum
deriving DecidableEq, Repr

instance : Inhabited Band := ⟨⟨.nan, .nan, .nan⟩⟩

/-- `calculateBollingerBands(prices, period, stdDev)`: warm-up indices give
the degenerate band at the raw price; otherwise middle is the moving average
and the band half-width is `stdDev` times the square root of the population
variance (divisor `period`) of the trailing window around the moving
average. -/
def calculateBollingerBands (sq : ℚ → ℚ) (prices : List JSNum) (period : ℕ)
    (stdDev : JSNum) : List Band :=
  let ma := calculateMovingAverage prices period
  (List.range prices.length).map fun i =>
    if i < period - 1 then ⟨jget prices i, jget prices i, jget prices i⟩
    else
      let window := jslice prices (i + 1 - period) (i + 1)
      let mean := jget ma i
      let variance := JSNum.div
        (window.foldl (fun s p => JSNum.add s (JSNum.pow2 (JSNum.sub p mean))) (.num 0))
        (.num (period : ℚ))
      let standardDeviation := JSNum.sqrtJ sq variance
      ⟨JSNum.add mean (JSNum.mul standardDeviation stdDev), mean,
       JSNum.sub mean (JSNum.mul standardDeviation stdDev)⟩

/-- The close-price filter used throughout:
`!isNaN(price) && isFinite(price) && price > 0`. -/
def validPrice (p : JSNum) : Bool := !p.isNaN && p.isFinite && JSNum.lt (.num 0) p

/-- The volume filter: `!isNaN(vol) && isFinite(vol) && vol >= 0`. -/
def validVolume (v : JSNum) : Bool := !v.isNaN && v.isFinite && JSNum.le (.num 0) v

/-- `validateData(data)`: non-empty and every value finite and positive. -/
def validateData (data : List JSNum) : Bool :=
  decide (0 < data.length) && data.all fun v => !v.isNaN && v.isFinite && JSNum.lt (.num 0) v

/-- One `HistoricalData` bar (`open` is a reserved word in Lean, hence `opn`). -/
structure Bar where
  date : String
  opn : JSNum
  high : JSNum
  low : JSNum
  close : JSNum
  volume : JSNum
deriving DecidableEq, Repr

instance : Inhabited Bar := ⟨⟨"", .nan, .nan, .nan, .nan, .nan⟩⟩

/-- The close prices of a series. -/
def closes (data : List Bar) : List JSNum := data.map (·.close)

/-- The volumes of a series. -/
def volumesOf (data : List Bar) : List JSNum := data.map (·.volume)

/-- `historicalData[historicalData.length - 1]?.close || 100`. -/
def predictFallbackLast (data : List Bar) : JSNum :=
  match data.getLast? with
  | some b => if b.close.truthy then b.close else .num 100
  | none => .num 100

/-- `calculateVolatility(prices)`: population standard deviation of the
per-step relative returns (computed only where the prior price is positive);
`0.02` when fewer than 2 prices or no usable returns. -/
def calculateVolatility (sq : ℚ → ℚ) (prices : List JSNum) : JSNum :=
  if prices.length < 2 then .num 0.02
  else
    let returns := (List.range (prices.length - 1)).filterMap fun i =>
      if JSNum.lt (.num 0) (jget prices i) then
        some (JSNum.div (JSNum.sub (jget prices (i + 1)) (jget prices i)) (jget prices i))
      else none
    if returns.length = 0 then .num 0.02
    else
      let mean := JSNum.div (sumJ returns) (.num (returns.length : ℚ))
      let variance := JSNum.div
        (returns.foldl (fun s ret => JSNum.add s (JSNum.pow2 (JSNum.sub ret mean))) (.num 0))
        (.num (returns.length : ℚ))
      JSNum.sqrtJ sq variance

/-- The weighted sum over the feature/weight pairs: a feature contributes
`value * weight` only when it is finite (`if (isFinite(value))`). -/
def weightedPrediction (weighted : List (JSNum × ℚ)) : JSNum :=
  weighted.foldl
    (fun acc vw => if vw.1.isFinite then JSNum.add acc (JSNum.mul vw.1 (.num vw.2)) else acc)
    (.num 0)

/-- The final hard clamp of `predictNextDay`:
`Math.max(currentPrice*0.92, Math.min(currentPrice*1.08, finalPrediction))`. -/
def predictClamp (currentPrice finalPrediction : JSNum) : JSNum :=
  JSNum.max (JSNum.mul currentPrice (.num 0.92))
    (JSNum.min (JSNum.mul currentPrice (.num 1.08)) finalPrediction)

/-- The feature/weight pairs of `predictNextDay`, in the object-insertion
order the source iterates them. -/
def featuresOf (sq : ℚ → ℚ) (prices volumes : List JSNum) : List (JSNum × ℚ) :=
  let sma20 := calculateMovingAverage prices 20
  let sma50 := calculateMovingAverage prices 50
  let rsi := calculateRSI prices 14
  let macd := calculateMACD prices
  let bollinger := calculateBollingerBands sq prices 20 (.num 2)
  let lastIndex := prices.length - 1
  let currentPrice := jget prices lastIndex
  let priceToSMA20 := if JSNum.lt (.num 0) (jget sma20 lastIndex) then
      JSNum.div currentPrice (jget sma20 lastIndex) else .num 1
  let priceToSMA50 := if JSNum.lt (.num 0) (jget sma50 lastIndex) then
      JSNum.div currentPrice (jget sma50 lastIndex) else .num 1
  let smaRatio := if JSNum.lt (.num 0) (jget sma50 lastIndex) then
      JSNum.div (jget sma20 lastIndex) (jget sma50 lastIndex) else .num 1
  let rsiFeature := if (jget rsi lastIndex).isFinite then
      JSNum.div (jget rsi lastIndex) (.num 100) else .num 0.5
  let macdSignal := if JSNum.lt (jget macd.signal lastIndex) (jget macd.macd lastIndex) then
      JSNum.num 1 else .num (-1)
  let bollingerPosition :=
    if decide (lastIndex < bollinger.length) &&
        JSNum.lt (.num 0) (JSNum.sub (bollinger.getD lastIndex default).upper
          (bollinger.getD lastIndex default).lower) then
      JSNum.div (JSNum.sub currentPrice (bollinger.getD lastIndex default).lower)
        (JSNum.sub (bollinger.getD lastIndex default).upper
          (bollinger.getD lastIndex default).lower)
    else .num 0.5
  let volumeRatio :=
    if decide (20 < volumes.length) && JSNum.lt (.num 0) (jget volumes (volumes.length - 1)) then
      JSNum.div (jget volumes (volumes.length - 1))
        (JSNum.div (sumJ (sliceLast volumes 20)) (.num 20))
    else .num 1
  let momentum :=
    if decide (10 < prices.length) && JSNum.lt (.num 0) (jget prices (lastIndex - 10)) then
      JSNum.div (JSNum.sub (jget prices lastIndex) (jget prices (lastIndex - 10)))
        (jget prices (lastIndex - 10))
    else .num 0
  let volatility := calculateVolatility sq (sliceLast prices 20)
  [(priceToSMA20, 0.18), (priceToSMA50, 0.15), (smaRatio, 0.20), (rsiFeature, -0.10),
   (macdSignal, 0.12), (bollingerPosition, -0.08), (volumeRatio, 0.08),
   (momentum, 0.28), (volatility, -0.09)]

/-- The main arm of `predictNextDay` (after the length, validation and
current-price guards): feature extraction, weighted sum with the exact
source weights, tanh squashing scaled by 0.04, multiplicative noise
`(r - 0.5) * 0.008`, and the final ±8% clamp. -/
def predictCore (th sq : ℚ → ℚ) (r : ℚ) (prices volumes : List JSNum) : JSNum :=
  let currentPrice := jget prices (prices.length - 1)
  let prediction := weightedPrediction (featuresOf sq prices volumes)
  let changePercent := JSNum.mul (JSNum.tanhJ th prediction) (.num 0.04)
  let predictedPrice := JSNum.mul currentPrice (JSNum.add (.num 1) changePercent)
  let noise := JSNum.mul (JSNum.sub (.num r) (.num 0.5)) (.num 0.008)
  let finalPrediction := JSNum.mul predictedPrice (JSNum.add (.num 1) noise)
  predictClamp currentPrice finalPrediction

/-- `predictNextDay(historicalData)`, with `Math.random()` as `r`. -/
def predictNextDay (th sq : ℚ → ℚ) (r : ℚ) (historicalData : List Bar) : JSNum :=
  if historicalData.length < 50 then
    let lastPrice := match historicalData.getLast? with
      | some b => b.close
      | none => JSNum.nan
    if lastPrice.truthy && !lastPrice.isNaN then lastPrice else .num 100
  else
    let prices := (closes historicalData).filter validPrice
    if !validateData prices then predictFallbackLast historicalData
    else
      let volumes := (volumesOf historicalData).filter validVolume
      let lastIndex := prices.length - 1
      let currentPrice := jget prices lastIndex
      if !currentPrice.truthy || currentPrice.isNaN || JSNum.le currentPrice (.num 0) then
        predictFallbackLast historicalData
      else predictCore th sq r prices volumes

/-- One `PredictionData` record. -/
structure Prediction where
  date : String
  actual : JSNum
  predicted : JSNum
  confidence : JSNum
deriving DecidableEq, Repr

/-- One iteration of the backtest loop of `generatePredictions`: predict from
the strict prefix `historicalData.slice(0, i)`, pair with `actualPrices[i]`,
and append when both values pass the `isNaN`/positivity guard, with the
confidence derived from the last 10 already-emitted entries. -/
def gpStep (th sq : ℚ → ℚ) (rand : ℕ → ℚ) (historicalData : List Bar)
    (actualPrices : List JSNum) (acc : List Prediction) (i : ℕ) : List Prediction :=
  let dataUpToPoint := historicalData.take i
  let predicted := predictNextDay th sq (rand i) dataUpToPoint
  let actual := jget actualPrices i
  if !actual.isNaN && !predicted.isNaN && JSNum.lt (.num 0) actual &&
      JSNum.lt (.num 0) predicted then
    let recentPredictions := sliceLast acc 10
    let avgError :=
      if decide (0 < recentPredictions.length) then
        JSNum.div
          (recentPredictions.foldl
            (fun s p => JSNum.add s (JSNum.div (JSNum.abs (JSNum.sub p.actual p.predicted)) p.actual))
            (.num 0))
          (.num (recentPredictions.length : ℚ))
      else .num 0.02
    let confidence := JSNum.max (.num 0.65)
      (JSNum.min (.num 0.95) (JSNum.sub (.num 1) (JSNum.mul avgError (.num 8))))
    acc ++ [⟨(historicalData.getD i default).date, actual, predicted, confidence⟩]
  else acc

/-- `generatePredictions(historicalData, days)` (the `i`-th call of
`predictNextDay` draws the random value `rand i`). -/
def generatePredictions (th sq : ℚ → ℚ) (rand : ℕ → ℚ) (historicalData : List Bar)
    (days : ℕ) : List Prediction :=
  let actualPrices := (closes historicalData).filter validPrice
  if actualPrices.length < 50 then []
  else
    let startIndex := Nat.max 50 (historicalData.length - days)
    (List.range' startIndex (historicalData.length - startIndex)).foldl
      (gpStep th sq rand historicalData actualPrices) []

/-- The three recommendation categories. -/
inductive RecAction where
  | BUY
  | SELL
  | HOLD
deriving DecidableEq, Repr

/-- One `InvestmentRecommendation` record.  The confidence is produced by
exact rational formulas from the integer score, so it is typed `ℚ`. -/
structure Recommendation where
  symbol : String
  name : String
  recommendation : RecAction
  targetPrice : JSNum
  confidence : ℚ
  reason : String
deriving DecidableEq, Repr

/-- The comparator's priority table: `{ BUY: 3, HOLD: 2, SELL: 1 }`. -/
def recPriority : RecAction → ℕ
  | .BUY => 3
  | .HOLD => 2
  | .SELL => 1

/-- `symbol.replace('.NS', '')` (symbols contain at most one `.NS`). -/
def stripNS (s : String) : String := s.replace ".NS" ""

/-- The score-to-category mapping of `generateInvestmentRecommendations`:
`score >= 5` is a BUY, `score <= -4` a SELL, anything else a HOLD, each with
its confidence formula (the final 0.95 cap is applied by the caller). -/
def scoreToRec (score : ℤ) : RecAction × ℚ :=
  if 5 ≤ score then (.BUY, Min.min 0.92 (0.75 + (score : ℚ) * 0.03))
  else if score ≤ -4 then (.SELL, Min.min 0.88 (0.70 + |(score : ℚ)| * 0.03))
  else (.HOLD, 0.70 + |(score : ℚ)| * 0.02)

/-- Scoring of one `(symbol, data)` pair inside
`generateInvestmentRecommendations` (everything before the final sort).
Each signal group yields its integer score contribution and its reason
strings; in the source the same branches mutate `score` and `reasons`. -/
def scoreStock (th sq : ℚ → ℚ) (r : ℚ) (symbol : String) (data : List Bar) :
    Recommendation :=
  if data.length < 50 then
    let lastPrice := match data.getLast? with
      | some b => b.close
      | none => JSNum.nan
    { symbol := symbol, name := stripNS symbol, recommendation := .HOLD,
      targetPrice := if lastPrice.truthy && !lastPrice.isNaN then lastPrice else .num 100,
      confidence := 0.5, reason := "Insufficient data for analysis" }
  else
    let prices := (closes data).filter validPrice
    if !validateData prices then
      { symbol := symbol, name := stripNS symbol, recommendation := .HOLD,
        targetPrice := .num 100, confidence := 0.5, reason := "Invalid price data" }
    else
      let currentPrice := jget prices (prices.length - 1)
      let predictedPrice := predictNextDay th sq r data
      let sma20 := calculateMovingAverage prices 20
      let sma50 := calculateMovingAverage prices 50
      let rsi := calculateRSI prices 14
      let macd := calculateMACD prices
      let lastIndex := prices.length - 1
      let priceChange := JSNum.div (JSNum.sub predictedPrice currentPrice) currentPrice
      let s1 : ℤ × List String :=
        if JSNum.lt (.num 0.025) priceChange then (4, ["Strong AI price prediction (+2.5%+)"])
        else if JSNum.lt (.num 0.01) priceChange then (2, ["Positive AI price prediction"])
        else if JSNum.lt priceChange (.num (-0.025)) then (-4, ["Negative AI price prediction (-2.5%+)"])
        else if JSNum.lt priceChange (.num (-0.01)) then (-2, ["Weak AI price prediction"])
        else (0, [])
      let s2 : ℤ × List String :=
        if JSNum.lt (jget sma50 lastIndex) (jget sma20 lastIndex) &&
            JSNum.lt (jget sma20 lastIndex) currentPrice then
          (3, ["Bullish trend (above moving averages)"])
        else if JSNum.lt (jget sma20 lastIndex) (jget sma50 lastIndex) &&
            JSNum.lt currentPrice (jget sma20 lastIndex) then
          (-3, ["Bearish trend (below moving averages)"])
        else (0, [])
      let currentRSI := jget rsi lastIndex
      let s3 : ℤ × List String :=
        if JSNum.lt currentRSI (.num 30) then (2, ["Oversold condition (RSI < 30)"])
        else if JSNum.lt (.num 70) currentRSI then (-2, ["Overbought condition (RSI > 70)"])
        else if JSNum.le (.num 40) currentRSI && JSNum.le currentRSI (.num 60) then
          (1, ["Neutral RSI levels"])
        else (0, [])
      let s4 : ℤ × List String :=
        if JSNum.lt (jget macd.signal lastIndex) (jget macd.macd lastIndex) then
          (1, ["Positive MACD crossover"])
        else (-1, ["Negative MACD signal"])
      let s5 : ℤ × List String :=
        if decide (10 < prices.length) then
          let momentum := JSNum.div (JSNum.sub currentPrice (jget prices (lastIndex - 10)))
            (jget prices (lastIndex - 10))
          if JSNum.lt (.num 0.08) momentum then (2, ["Strong positive momentum (8%+)"])
          else if JSNum.lt (.num 0.03) momentum then (1, ["Positive momentum"])
          else if JSNum.lt momentum (.num (-0.08)) then (-2, ["Strong negative momentum (-8%+)"])
          else if JSNum.lt momentum (.num (-0.03)) then (-1, ["Negative momentum"])
          else (0, [])
        else (0, [])
      let score : ℤ := s1.1 + s2.1 + s3.1 + s4.1 + s5.1
      let reasons : List String := s1.2 ++ s2.2 ++ s3.2 ++ s4.2 ++ s5.2
      let rc : RecAction × ℚ := scoreToRec score
      let reasonStr := String.intercalate ", " (reasons.take 2)
      { symbol := symbol, name := stripNS symbol, recommendation := rc.1,
        targetPrice := JSNum.max predictedPrice (.num 1),
        confidence := Min.min rc.2 0.95,
        reason := if reasonStr = "" then "Mixed technical signals" else reasonStr }

/-- The sort comparator of `generateInvestmentRecommendations` as a relation:
`a` may precede `b` when `a` has strictly higher priority, or equal priority
and at-least-equal confidence. -/
def recLE (a b : Recommendation) : Prop :=
  recPriority b.recommendation < recPriority a.recommendation ∨
    (recPriority a.recommendation = recPriority b.recommendation ∧ b.confidence ≤ a.confidence)

instance : DecidableRel recLE := fun a b => by
  unfold recLE; infer_instance

instance : IsTotal Recommendation recLE where
  total a b := by
    unfold recLE
    rcases lt_trichotomy (recPriority a.recommendation) (recPriority b.recommendation) with h | h | h
    · exact Or.inr (Or.inl h)
    · rcases le_total a.confidence b.confidence with hc | hc
      · exact Or.inr (Or.inr ⟨h.symm, hc⟩)
      · exact Or.inl (Or.inr ⟨h, hc⟩)
    · exact Or.inl (Or.inl h)

instance : IsTrans Recommendation recLE where
  trans a b c hab hbc := by
    unfold recLE at *
    rcases hab with h1 | ⟨h1, hc1⟩
    · rcases hbc with h2 | ⟨h2, _⟩
      · exact Or.inl (h2.trans h1)
      · exact Or.inl (h2 ▸ h1)
    · rcases hbc with h2 | ⟨h2, hc2⟩
      · exact Or.inl (h1 ▸ h2)
      · exact Or.inr ⟨h1.trans h2, hc2.trans hc1⟩

/-- `generateInvestmentRecommendations(stocksData)`: score every pair, then
sort by priority descending with confidence descending as tie-break.  The
source's `Array.prototype.sort` is a stable sort and the comparator is a
total preorder, so its output is the unique stable sorted permutation, which
is what `List.insertionSort` (also stable) computes.  The `i`-th symbol's
`predictNextDay` call draws `rand i`. -/
def generateInvestmentRecommendations (th sq : ℚ → ℚ) (rand : ℕ → ℚ)
    (stocksData : List (String × List Bar)) : List Recommendation :=
  List.insertionSort recLE
    (stocksData.enum.map fun p => scoreStock th sq (rand p.1) p.2.1 p.2.2)

/-! ### Basic lemmas about the embedding -/

theorem getD_map_range {α : Type} (f : ℕ → α) (n i : ℕ) (h : i < n) (d : α) :
    ((List.range n).map f).getD i d = f i := by
  rw [List.getD_eq_getElem?_getD, List.getElem?_map, List.getElem?_range h]
  rfl

theorem length_movingAverage (data : List JSNum) (w : ℕ) :
    (calculateMovingAverage data w).length = data.length := by
  simp [calculateMovingAverage]

theorem length_emaGo (m : ℚ) (prev : JSNum) (l : List JSNum) :
    (emaGo m prev l).length = l.length := by
  induction l generalizing prev with
  | nil => rfl
  | cons p rest ih => simp [emaGo, ih]

theorem length_ema (prices : List JSNum) (period : ℕ) (h : prices ≠ []) :
    (calculateEMA prices period).length = prices.length := by
  have hp : 0 < prices.length := List.length_pos.mpr h
  simp only [calculateEMA, List.length_cons, length_emaGo, List.length_drop]
  omega

theorem length_rsi (prices : List JSNum) (period : ℕ) :
    (calculateRSI prices period).length = prices.length - 1 := by
  simp [calculateRSI, rsiGains]

theorem length_bollinger (sq : ℚ → ℚ) (prices : List JSNum) (period : ℕ) (stdDev : JSNum) :
    (calculateBollingerBands sq prices period stdDev).length = prices.length := by
  simp [calculateBollingerBands]

theorem length_macd (prices : List JSNum) (h : prices ≠ []) :
    (calculateMACD prices).macd.length = prices.length ∧
    (calculateMACD prices).signal.length = prices.length ∧
    (calculateMACD prices).histogram.length = prices.length := by
  have hp : 0 < prices.length := List.length_pos.mpr h
  have h12 : (calculateEMA prices 12).length = prices.length := length_ema prices 12 h
  have hline : ((List.range (calculateEMA prices 12).length).map fun i =>
      JSNum.sub (jget (calculateEMA prices 12) i) (jget (calculateEMA prices 26) i)).length
      = prices.length := by simp [h12]
  have hne : ((List.range (calculateEMA prices 12).length).map fun i =>
      JSNum.sub (jget (calculateEMA prices 12) i) (jget (calculateEMA prices 26) i)) ≠ [] := by
    rw [← List.length_pos, hline]; exact hp
  refine ⟨?_, ?_, ?_⟩ <;>
    simp only [calculateMACD] <;>
    simp [hline, length_ema _ 9 hne]

/-! ### C5 and C6: indicator array lengths and RSI warm-up -/

/-- C5, counterexample: `calculateRSI` on the two-element price array
`[1, 2]` returns an array of length 1, not 2, so it is not the same length
as its input: the blanket same-length statement is false for RSI. -/
theorem claim_C5_cx :
    (calculateRSI [JSNum.num 1, JSNum.num 2] 14).length ≠
      ([JSNum.num 1, JSNum.num 2] : List JSNum).length := by
  decide

/-- C5, amended: for every non-empty price array, the simple moving average,
the exponential moving average, all three MACD arrays and the Bollinger-band
array have exactly the input's length (index `i` of each corresponds to
index `i` of the input), while RSI returns an array of length
`input length - 1` (aligned to the gains/losses array). -/
theorem claim_C5 (prices : List JSNum) (h : prices ≠ []) (window period : ℕ)
    (sq : ℚ → ℚ) (stdDev : JSNum) :
    (calculateMovingAverage prices window).length = prices.length ∧
    (calculateEMA prices period).length = prices.length ∧
    (calculateMACD prices).macd.length = prices.length ∧
    (calculateMACD prices).signal.length = prices.length ∧
    (calculateMACD prices).histogram.length = prices.length ∧
    (calculateBollingerBands sq prices period stdDev).length = prices.length ∧
    (calculateRSI prices period).length = prices.length - 1 :=
  ⟨length_movingAverage prices window, length_ema prices period h,
   (length_macd prices h).1, (length_macd prices h).2.1, (length_macd prices h).2.2,
   length_bollinger sq prices period stdDev, length_rsi prices period⟩

/-- Witness for C5 at the concrete one-element array `[1]`. -/
theorem claim_C5_witness :
    (([JSNum.num 1] : List JSNum) ≠ []) ∧
    ((calculateMovingAverage [JSNum.num 1] 20).length = 1 ∧
     (calculateEMA [JSNum.num 1] 12).length = 1 ∧
     (calculateMACD [JSNum.num 1]).macd.length = 1 ∧
     (calculateMACD [JSNum.num 1]).signal.length = 1 ∧
     (calculateMACD [JSNum.num 1]).histogram.length = 1 ∧
     (calculateBollingerBands id [JSNum.num 1] 20 (JSNum.num 2)).length = 1 ∧
     (calculateRSI [JSNum.num 1] 14).length = 1 - 1) :=
  ⟨by decide, claim_C5 [JSNum.num 1] (by decide) 20 14 id (JSNum.num 2)⟩

/-- C6: for a price array of length `n ≥ 1` the RSI output has length
`n - 1` (one entry per gains/losses index, gains index `i` corresponding to
price index `i+1`), and every entry with index `< period - 1` is exactly
the neutral `50`. -/
theorem claim_C6 (prices : List JSNum) (period : ℕ) (_h : 1 ≤ prices.length) :
    (calculateRSI prices period).length = prices.length - 1 ∧
    ∀ i, i < period - 1 → i < prices.length - 1 →
      (calculateRSI prices period).getD i .nan = .num 50 := by
  refine ⟨length_rsi prices period, fun i h1 h2 => ?_⟩
  simp only [calculateRSI]
  rw [getD_map_range]
  · rw [if_pos h1]
  · simpa [rsiGains] using h2

/-- Witness for C6 at the concrete array `[1, 2, 3]` with period 14. -/
theorem claim_C6_witness :
    (1 ≤ ([JSNum.num 1, JSNum.num 2, JSNum.num 3] : List JSNum).length) ∧
    ((calculateRSI [JSNum.num 1, JSNum.num 2, JSNum.num 3] 14).length = 3 - 1 ∧
     ∀ i, i < 14 - 1 → i < 3 - 1 →
       (calculateRSI [JSNum.num 1, JSNum.num 2, JSNum.num 3] 14).getD i .nan = .num 50) :=
  ⟨by decide, claim_C6 [JSNum.num 1, JSNum.num 2, JSNum.num 3] 14 (by decide)⟩

/-! ### C7: Bollinger bands versus the moving average -/

/-- Modelled from the spec's words for comparison with the code: the
population standard deviation (divisor = `period`, not `period - 1`) of the
trailing `period` prices around the SMA value at index `i`, under the same
square-root model `sq`. -/
def popStdDevAroundSMA (sq : ℚ → ℚ) (prices : List JSNum) (period i : ℕ) : JSNum :=
  let mean := jget (calculateMovingAverage prices period) i
  let window := jslice prices (i + 1 - period) (i + 1)
  JSNum.sqrtJ sq
    (JSNum.div (sumJ (window.map fun p => JSNum.pow2 (JSNum.sub p mean)))
      (.num (period : ℚ)))

/-- C7: at every index `i ≥ period - 1` the Bollinger middle band is exactly
the SMA(`period`) value at `i` (the same arithmetic — the source reuses
`ma[i]` as the mean), and the upper/lower bands are middle plus/minus the
population standard deviation (divisor `period`) of the trailing window
around that SMA value, scaled by `stdDev`. -/
theorem claim_C7 (sq : ℚ → ℚ) (prices : List JSNum) (period : ℕ) (stdDev : JSNum)
    (i : ℕ) (h1 : period - 1 ≤ i) (h2 : i < prices.length) :
    ((calculateBollingerBands sq prices period stdDev).getD i default).middle
      = (calculateMovingAverage prices period).getD i .nan ∧
    ((calculateBollingerBands sq prices period stdDev).getD i default).upper
      = JSNum.add ((calculateBollingerBands sq prices period stdDev).getD i default).middle
          (JSNum.mul (popStdDevAroundSMA sq prices period i) stdDev) ∧
    ((calculateBollingerBands sq prices period stdDev).getD i default).lower
      = JSNum.sub ((calculateBollingerBands sq prices period stdDev).getD i default).middle
          (JSNum.mul (popStdDevAroundSMA sq prices period i) stdDev) := by
  have hni : ¬ i < period - 1 := Nat.not_lt.mpr h1
  simp only [calculateBollingerBands]
  rw [getD_map_range _ _ _ h2, if_neg hni]
  refine ⟨rfl, ?_, ?_⟩ <;>
    simp [popStdDevAroundSMA, sumJ, List.foldl_map, jget]

/-- Witness for C7 at `[1, 2, 3]`, period 2, index 2. -/
theorem claim_C7_witness :
    (2 - 1 ≤ 2 ∧ 2 < ([JSNum.num 1, JSNum.num 2, JSNum.num 3] : List JSNum).length) ∧
    (((calculateBollingerBands id [JSNum.num 1, JSNum.num 2, JSNum.num 3] 2 (JSNum.num 2)).getD 2 default).middle
      = (calculateMovingAverage [JSNum.num 1, JSNum.num 2, JSNum.num 3] 2).getD 2 .nan ∧
     ((calculateBollingerBands id [JSNum.num 1, JSNum.num 2, JSNum.num 3] 2 (JSNum.num 2)).getD 2 default).upper
      = JSNum.add ((calculateBollingerBands id [JSNum.num 1, JSNum.num 2, JSNum.num 3] 2 (JSNum.num 2)).getD 2 default).middle
          (JSNum.mul (popStdDevAroundSMA id [JSNum.num 1, JSNum.num 2, JSNum.num 3] 2 2) (JSNum.num 2)) ∧
     ((calculateBollingerBands id [JSNum.num 1, JSNum.num 2, JSNum.num 3] 2 (JSNum.num 2)).getD 2 default).lower
      = JSNum.sub ((calculateBollingerBands id [JSNum.num 1, JSNum.num 2, JSNum.num 3] 2 (JSNum.num 2)).getD 2 default).middle
          (JSNum.mul (popStdDevAroundSMA id [JSNum.num 1, JSNum.num 2, JSNum.num 3] 2 2) (JSNum.num 2))) :=
  ⟨⟨by decide, by decide⟩,
   claim_C7 id [JSNum.num 1, JSNum.num 2, JSNum.num 3] 2 (JSNum.num 2) 2 (by decide) (by decide)⟩

/-! ### JSNum computation lemmas -/

theorem JSNum.mul_num (a b : ℚ) : JSNum.mul (.num a) (.num b) = .num (a * b) := rfl

theorem JSNum.add_num (a b : ℚ) : JSNum.add (.num a) (.num b) = .num (a + b) := rfl

theorem JSNum.sub_num (a b : ℚ) : JSNum.sub (.num a) (.num b) = .num (a - b) := by
  show JSNum.num (a + -b) = _
  rw [← sub_eq_add_neg]

theorem JSNum.tanhJ_num (th : ℚ → ℚ) (q : ℚ) : JSNum.tanhJ th (.num q) = .num (th q) := rfl

theorem JSNum.max_num (a b : ℚ) : JSNum.max (.num a) (.num b) = .num (Max.max a b) := by
  show (if JSNum.lt (.num a) (.num b) then JSNum.num b else .num a) = _
  simp only [JSNum.lt]
  rcases lt_or_le a b with h | h
  · rw [if_pos (by simpa using h), max_eq_right h.le]
  · rw [if_neg (by simpa using not_lt.mpr h), max_eq_left h]

theorem JSNum.min_num (a b : ℚ) : JSNum.min (.num a) (.num b) = .num (Min.min a b) := by
  show (if JSNum.lt (.num b) (.num a) then JSNum.num b else .num a) = _
  simp only [JSNum.lt]
  rcases lt_or_le b a with h | h
  · rw [if_pos (by simpa using h), min_eq_right h.le]
  · rw [if_neg (by simpa using not_lt.mpr h), min_eq_left h]

theorem JSNum.isFinite_iff {v : JSNum} : v.isFinite = true ↔ ∃ q, v = .num q := by
  cases v <;> simp [JSNum.isFinite]

/-- The price filter accepts exactly the positive finite values. -/
theorem validPrice_iff {v : JSNum} : validPrice v = true ↔ ∃ q, v = .num q ∧ 0 < q := by
  cases v <;> simp [validPrice, JSNum.isNaN, JSNum.isFinite, JSNum.lt]

theorem validateData_eq_true {l : List JSNum} (hne : l ≠ [])
    (hall : ∀ x ∈ l, ∃ q, x = .num q ∧ 0 < q) : validateData l = true := by
  simp only [validateData, Bool.and_eq_true, decide_eq_true_eq, List.all_eq_true]
  refine ⟨List.length_pos.mpr hne, fun x hx => ?_⟩
  obtain ⟨q, rfl, h0⟩ := hall x hx
  simp [JSNum.isNaN, JSNum.isFinite, JSNum.lt, h0]

theorem validateData_spec {l : List JSNum} (h : validateData l = true) :
    l ≠ [] ∧ ∀ x ∈ l, ∃ q, x = .num q ∧ 0 < q := by
  simp only [validateData, Bool.and_eq_true, decide_eq_true_eq, List.all_eq_true] at h
  refine ⟨List.length_pos.mp h.1, fun x hx => ?_⟩
  have hv := h.2 x hx
  cases x <;> simp [JSNum.isNaN, JSNum.isFinite, JSNum.lt] at hv ⊢
  exact hv

/-- The weighted feature sum is always a finite number: only finite features
contribute, and the accumulator starts at 0. -/
theorem weightedPrediction_num (l : List (JSNum × ℚ)) :
    ∃ b, weightedPrediction l = .num b := by
  suffices h : ∀ a : ℚ, ∃ b, l.foldl
      (fun acc vw => if vw.1.isFinite then JSNum.add acc (JSNum.mul vw.1 (.num vw.2)) else acc)
      (.num a) = .num b from h 0
  induction l with
  | nil => exact fun a => ⟨a, rfl⟩
  | cons v rest ih =>
    intro a
    simp only [List.foldl_cons]
    by_cases hf : v.1.isFinite = true
    · obtain ⟨q, hq⟩ := JSNum.isFinite_iff.mp hf
      rw [if_pos hf, hq, JSNum.mul_num, JSNum.add_num]
      exact ih _
    · rw [if_neg hf]
      exact ih _

/-- The final clamp always lands in the closed ±8% band around a positive
current price. -/
theorem predictClamp_num (c f : ℚ) (hc : 0 < c) :
    ∃ p, predictClamp (.num c) (.num f) = .num p ∧ 0.92 * c ≤ p ∧ p ≤ 1.08 * c := by
  refine ⟨Max.max (c * 0.92) (Min.min (c * 1.08) f), ?_, ?_, ?_⟩
  · simp [predictClamp, JSNum.mul_num, JSNum.min_num, JSNum.max_num]
  · calc (0.92 : ℚ) * c = c * 0.92 := by ring
      _ ≤ _ := le_max_left _ _
  · apply max_le
    · linarith
    · exact le_trans (min_le_left _ _) (by linarith)

/-- The main arm of the predictor stays in the ±8% band around the (finite,
positive) last filtered price, for every tanh, sqrt and noise value. -/
theorem predictCore_band (th sq : ℚ → ℚ) (r : ℚ) (prices volumes : List JSNum)
    (c : ℚ) (hget : jget prices (prices.length - 1) = .num c) (hc : 0 < c) :
    ∃ p, predictCore th sq r prices volumes = .num p ∧ 0.92 * c ≤ p ∧ p ≤ 1.08 * c := by
  obtain ⟨b, hb⟩ := weightedPrediction_num (featuresOf sq prices volumes)
  simp only [predictCore, hget, hb, JSNum.tanhJ_num, JSNum.mul_num, JSNum.add_num,
    JSNum.sub_num]
  exact predictClamp_num c _ hc

theorem getLast?_mem_of_eq {α : Type} {l : List α} {a : α} (h : l.getLast? = some a) :
    a ∈ l := by
  induction l with
  | nil => simp at h
  | cons x xs ih =>
    cases xs with
    | nil =>
      simp only [List.getLast?_singleton, Option.some.injEq] at h
      simp [h]
    | cons y ys =>
      rw [List.getLast?_cons_cons] at h
      exact List.mem_cons_of_mem _ (ih h)

theorem jget_last_closes (data : List Bar) (b : Bar) (h : data.getLast? = some b) :
    jget (closes data) (data.length - 1) = b.close := by
  rw [jget, List.getD_eq_getElem?_getD]
  have hlast : (closes data)[data.length - 1]? = some b.close := by
    rw [closes, List.getElem?_map, show data.length = (data).length from rfl,
      ← List.getLast?_eq_getElem?, h]
    rfl
  rw [hlast]
  rfl

theorem filter_closes_eq (data : List Bar)
    (hall : ∀ x ∈ data, ∃ q : ℚ, x.close = .num q ∧ 0 < q) :
    (closes data).filter validPrice = closes data := by
  apply List.filter_eq_self.mpr
  intro x hx
  obtain ⟨bb, hbb, rfl⟩ := List.mem_map.mp hx
  exact validPrice_iff.mpr (hall bb hbb)

/-! ### C1: the hard ±8% band of predictNextDay -/

/-- C1: for every series of at least 50 bars whose close prices are all
positive finite numbers, and for every tanh/sqrt model and every noise draw
`r`, `predictNextDay` returns a finite value inside the inclusive band
`[0.92 * currentClose, 1.08 * currentClose]`, where `currentClose` is the
last close of the series. -/
theorem claim_C1 (th sq : ℚ → ℚ) (r : ℚ) (data : List Bar) (b : Bar) (c : ℚ)
    (h50 : 50 ≤ data.length)
    (hpos : ∀ x ∈ data, ∃ q : ℚ, x.close = .num q ∧ 0 < q)
    (hlast : data.getLast? = some b) (hc : b.close = .num c) :
    ∃ p : ℚ, predictNextDay th sq r data = .num p ∧ 0.92 * c ≤ p ∧ p ≤ 1.08 * c := by
  have hne : data ≠ [] := by
    intro e
    rw [e] at hlast
    simp at hlast
  have hb_mem : b ∈ data := getLast?_mem_of_eq hlast
  obtain ⟨q, hq, hq0⟩ := hpos b hb_mem
  have hc0 : 0 < c := by
    rw [hc] at hq
    cases hq
    exact hq0
  have hfilter := filter_closes_eq data hpos
  have hlen : (closes data).length = data.length := by simp [closes]
  have hvd : validateData (closes data) = true := by
    refine validateData_eq_true ?_ ?_
    · simp [closes, hne]
    · intro x hx
      obtain ⟨bb, hbb, rfl⟩ := List.mem_map.mp hx
      exact hpos bb hbb
  have hget : jget (closes data) ((closes data).length - 1) = .num c := by
    rw [hlen, jget_last_closes data b hlast, hc]
  unfold predictNextDay
  rw [if_neg (by omega : ¬ data.length < 50)]
  simp only [hfilter, hvd, Bool.not_true, Bool.false_eq_true, if_false, hget]
  have hguard : (!(JSNum.num c).truthy || (JSNum.num c).isNaN ||
      JSNum.le (.num c) (.num 0)) = false := by
    simp [JSNum.truthy, JSNum.isNaN, JSNum.le, hc0.ne', not_le.mpr hc0]
  rw [hguard]
  simp only [Bool.false_eq_true, if_false]
  exact predictCore_band th sq r _ _ c hget hc0

/-- A bar builder for the concrete witnesses. -/
def wBar (c : JSNum) : Bar := ⟨"d", .num 1, .num 1, .num 1, c, .num 1000000⟩

/-- Witness for C1: 50 bars at close 100 — the prediction exists and lies in
`[92, 108]`. -/
theorem claim_C1_witness :
    (50 ≤ (List.replicate 50 (wBar (.num 100))).length) ∧
    (∃ p : ℚ, predictNextDay id id 0 (List.replicate 50 (wBar (.num 100))) = .num p ∧
      0.92 * 100 ≤ p ∧ p ≤ 1.08 * 100) :=
  ⟨by simp, claim_C1 id id 0 (List.replicate 50 (wBar (.num 100))) (wBar (.num 100)) 100
    (by simp)
    (fun x hx => ⟨100, by rw [List.eq_of_mem_replicate hx]; exact ⟨rfl, by norm_num⟩⟩)
    (by decide) rfl⟩

/-! ### C4: the short-history branch -/

/-- C4, counterexample: a single bar with close 0 — the last close is
available and finite, yet `predictNextDay` returns 100, not the last close
(JavaScript `0` is falsy, so the `lastPrice && !isNaN(lastPrice)` guard
sends it to the fallback). -/
theorem claim_C4_cx :
    predictNextDay id id 0 [wBar (.num 0)] = .num 100 ∧
    (wBar (.num 0)).close = .num 0 ∧ (JSNum.num 100) ≠ .num 0 := by
  refine ⟨by decide, rfl, by decide⟩

/-- C4, amended: for a series of fewer than 50 bars, `predictNextDay`
returns the last close verbatim exactly when it is a nonzero non-NaN value
(an infinite last close is returned verbatim, not replaced by 100), and
returns 100 when the last close is missing, `NaN`, or zero.  The noise step
is skipped: the result does not depend on `r`. -/
theorem claim_C4 (th sq : ℚ → ℚ) (r : ℚ) (data : List Bar) (h : data.length < 50) :
    (∀ b (c : ℚ), data.getLast? = some b → b.close = .num c → c ≠ 0 →
      predictNextDay th sq r data = .num c) ∧
    (∀ b, data.getLast? = some b → b.close = .num 0 →
      predictNextDay th sq r data = .num 100) ∧
    (∀ b, data.getLast? = some b → b.close = .inf →
      predictNextDay th sq r data = .inf) ∧
    (∀ b, data.getLast? = some b → b.close = .ninf →
      predictNextDay th sq r data = .ninf) ∧
    (∀ b, data.getLast? = some b → b.close = .nan →
      predictNextDay th sq r data = .num 100) ∧
    (data.getLast? = none → predictNextDay th sq r data = .num 100) := by
  refine ⟨?_, ?_, ?_, ?_, ?_, ?_⟩
  · intro b c hb hcl hc0
    unfold predictNextDay
    rw [if_pos h, hb]
    simp [JSNum.truthy, JSNum.isNaN, hcl, hc0]
  · intro b hb hcl
    unfold predictNextDay
    rw [if_pos h, hb]
    simp [JSNum.truthy, JSNum.isNaN, hcl]
  · intro b hb hcl
    unfold predictNextDay
    rw [if_pos h, hb]
    simp [JSNum.truthy, JSNum.isNaN, hcl]
  · intro b hb hcl
    unfold predictNextDay
    rw [if_pos h, hb]
    simp [JSNum.truthy, JSNum.isNaN, hcl]
  · intro b hb hcl
    unfold predictNextDay
    rw [if_pos h, hb]
    simp [JSNum.truthy, JSNum.isNaN, hcl]
  · intro hb
    unfold predictNextDay
    rw [if_pos h, hb]
    simp [JSNum.truthy, JSNum.isNaN]

/-- Witness for C4 at the one-bar series with close 5. -/
theorem claim_C4_witness :
    (([wBar (.num 5)] : List Bar).length < 50) ∧
    ((∀ b (c : ℚ), ([wBar (.num 5)] : List Bar).getLast? = some b → b.close = .num c → c ≠ 0 →
        predictNextDay id id 0 [wBar (.num 5)] = .num c) ∧
     (∀ b, ([wBar (.num 5)] : List Bar).getLast? = some b → b.close = .num 0 →
        predictNextDay id id 0 [wBar (.num 5)] = .num 100) ∧
     (∀ b, ([wBar (.num 5)] : List Bar).getLast? = some b → b.close = .inf →
        predictNextDay id id 0 [wBar (.num 5)] = .inf) ∧
     (∀ b, ([wBar (.num 5)] : List Bar).getLast? = some b → b.close = .ninf →
        predictNextDay id id 0 [wBar (.num 5)] = .ninf) ∧
     (∀ b, ([wBar (.num 5)] : List Bar).getLast? = some b → b.close = .nan →
        predictNextDay id id 0 [wBar (.num 5)] = .num 100) ∧
     (([wBar (.num 5)] : List Bar).getLast? = none →
        predictNextDay id id 0 [wBar (.num 5)] = .num 100)) :=
  ⟨by decide, claim_C4 id id 0 [wBar (.num 5)] (by decide)⟩

/-! ### C2: the ordering of the recommendation list -/

/-- C2: the output of `generateInvestmentRecommendations` is ordered by
recommendation priority (BUY=3, HOLD=2, SELL=1) descending with confidence
descending as tie-break: for any earlier entry `a` and later entry `b`,
`a`'s priority is at least `b`'s (in particular a SELL is never followed by
a BUY, whatever the confidences), and when the categories are equal the
earlier entry's confidence is at least the later one's. -/
theorem claim_C2 (th sq : ℚ → ℚ) (rand : ℕ → ℚ) (stocksData : List (String × List Bar)) :
    (generateInvestmentRecommendations th sq rand stocksData).Pairwise
      (fun a b =>
        recPriority b.recommendation ≤ recPriority a.recommendation ∧
        (a.recommendation = .SELL → b.recommendation ≠ .BUY) ∧
        (a.recommendation = b.recommendation → b.confidence ≤ a.confidence)) := by
  have hs : (generateInvestmentRecommendations th sq rand stocksData).Sorted recLE :=
    List.sorted_insertionSort recLE _
  refine List.Pairwise.imp ?_ hs
  intro a b hab
  refine ⟨?_, ?_, ?_⟩
  · rcases hab with h | ⟨h, _⟩
    · exact h.le
    · exact h.ge
  · intro h1 h2
    simp [recLE, recPriority, h1, h2] at hab
  · intro heq
    rcases hab with h | ⟨_, hc⟩
    · rw [heq] at h
      exact absurd h (lt_irrefl _)
    · exact hc

/-- Witness for C2 at a concrete two-stock input. -/
theorem claim_C2_witness :
    (generateInvestmentRecommendations id id (fun _ => 0)
        [("A", [wBar (.num 5)]), ("B", [])]).Pairwise
      (fun a b =>
        recPriority b.recommendation ≤ recPriority a.recommendation ∧
        (a.recommendation = .SELL → b.recommendation ≠ .BUY) ∧
        (a.recommendation = b.recommendation → b.confidence ≤ a.confidence)) :=
  claim_C2 id id (fun _ => 0) [("A", [wBar (.num 5)]), ("B", [])]

/-! ### C10: confidence bands per recommendation category -/

theorem scoreToRec_capped_bounds (s : ℤ) :
    ((scoreToRec s).1 = .BUY →
      0.90 ≤ Min.min (scoreToRec s).2 0.95 ∧ Min.min (scoreToRec s).2 0.95 ≤ 0.92) ∧
    ((scoreToRec s).1 = .SELL →
      0.82 ≤ Min.min (scoreToRec s).2 0.95 ∧ Min.min (scoreToRec s).2 0.95 ≤ 0.88) ∧
    ((scoreToRec s).1 = .HOLD →
      0.70 ≤ Min.min (scoreToRec s).2 0.95 ∧ Min.min (scoreToRec s).2 0.95 ≤ 0.78) := by
  unfold scoreToRec
  split_ifs with h1 h2
  · have hs : (5 : ℚ) ≤ (s : ℚ) := by exact_mod_cast h1
    refine ⟨fun _ => ⟨?_, ?_⟩, by simp, by simp⟩
    · exact le_min (le_min (by norm_num) (by linarith)) (by norm_num)
    · exact le_trans (min_le_left _ _) (min_le_left _ _)
  · have hs : (s : ℚ) ≤ -4 := by exact_mod_cast h2
    have habs : 4 ≤ |(s : ℚ)| := by
      rw [abs_of_nonpos (by linarith)]
      linarith
    refine ⟨by simp, fun _ => ⟨?_, ?_⟩, by simp⟩
    · exact le_min (le_min (by norm_num) (by linarith)) (by norm_num)
    · exact le_trans (min_le_left _ _) (min_le_left _ _)
  · have habs : |(s : ℚ)| ≤ 4 := by
      rw [abs_le]
      refine ⟨?_, ?_⟩
      · exact_mod_cast (by omega : (-4 : ℤ) ≤ s)
      · exact_mod_cast (by omega : s ≤ (4 : ℤ))
    have h0 : (0 : ℚ) ≤ |(s : ℚ)| := abs_nonneg _
    refine ⟨by simp, by simp, fun _ => ⟨?_, ?_⟩⟩
    · exact le_min (by linarith) (by norm_num)
    · exact le_trans (min_le_left _ _) (by linarith)

/-- C10: on the non-degenerate path (at least 50 bars and prices passing
validation) the confidence of a BUY lies in `[0.90, 0.92]`, of a SELL in
`[0.82, 0.88]` and of a HOLD in `[0.70, 0.78]` — so in this path every BUY
and every SELL carries strictly higher confidence than every HOLD, even
though SELL sorts last. -/
theorem claim_C10 (th sq : ℚ → ℚ) (r : ℚ) (symbol : String) (data : List Bar)
    (h50 : 50 ≤ data.length)
    (hvd : validateData ((closes data).filter validPrice) = true) :
    ((scoreStock th sq r symbol data).recommendation = .BUY →
      0.90 ≤ (scoreStock th sq r symbol data).confidence ∧
        (scoreStock th sq r symbol data).confidence ≤ 0.92) ∧
    ((scoreStock th sq r symbol data).recommendation = .SELL →
      0.82 ≤ (scoreStock th sq r symbol data).confidence ∧
        (scoreStock th sq r symbol data).confidence ≤ 0.88) ∧
    ((scoreStock th sq r symbol data).recommendation = .HOLD →
      0.70 ≤ (scoreStock th sq r symbol data).confidence ∧
        (scoreStock th sq r symbol data).confidence ≤ 0.78) := by
  have h1 : ¬ data.length < 50 := by omega
  unfold scoreStock
  rw [if_neg h1]
  simp only [hvd, Bool.not_true, Bool.false_eq_true, if_false]
  exact scoreToRec_capped_bounds _

/-- The concrete 50-bar series for the C10 and C1-adjacent witnesses. -/
def wData : List Bar := List.replicate 50 (wBar (.num 100))

/-- Witness for C10 at the concrete 50-bar series of closes 100. -/
theorem claim_C10_witness :
    (50 ≤ wData.length ∧ validateData ((closes wData).filter validPrice) = true) ∧
    (((scoreStock id id 0 "W" wData).recommendation = .BUY →
      0.90 ≤ (scoreStock id id 0 "W" wData).confidence ∧
        (scoreStock id id 0 "W" wData).confidence ≤ 0.92) ∧
     ((scoreStock id id 0 "W" wData).recommendation = .SELL →
      0.82 ≤ (scoreStock id id 0 "W" wData).confidence ∧
        (scoreStock id id 0 "W" wData).confidence ≤ 0.88) ∧
     ((scoreStock id id 0 "W" wData).recommendation = .HOLD →
      0.70 ≤ (scoreStock id id 0 "W" wData).confidence ∧
        (scoreStock id id 0 "W" wData).confidence ≤ 0.78)) :=
  ⟨⟨by decide, by decide⟩, claim_C10 id id 0 "W" wData (by decide) (by decide)⟩

/-! ### C3 and C8: the backtest loop -/

/-- Appending is all one backtest iteration can do to the accumulator. -/
theorem gpStep_append (th sq : ℚ → ℚ) (rand : ℕ → ℚ) (hd : List Bar) (ap : List JSNum)
    (acc : List Prediction) (i : ℕ) :
    ∃ t, gpStep th sq rand hd ap acc i = acc ++ t := by
  simp only [gpStep]
  split
  · exact ⟨_, rfl⟩
  · exact ⟨[], (List.append_nil acc).symm⟩

theorem foldl_gpStep_append (th sq : ℚ → ℚ) (rand : ℕ → ℚ) (hd : List Bar)
    (ap : List JSNum) (l : List ℕ) :
    ∀ acc : List Prediction, ∃ t, l.foldl (gpStep th sq rand hd ap) acc = acc ++ t := by
  induction l with
  | nil => exact fun acc => ⟨[], (List.append_nil acc).symm⟩
  | cons i l ih =>
    intro acc
    rw [List.foldl_cons]
    obtain ⟨t1, ht1⟩ := ih (gpStep th sq rand hd ap acc i)
    obtain ⟨t0, ht0⟩ := gpStep_append th sq rand hd ap acc i
    exact ⟨t0 ++ t1, by rw [ht1, ht0, List.append_assoc]⟩

theorem generatePredictions_eq (th sq : ℚ → ℚ) (rand : ℕ → ℚ) (hd : List Bar) (days : ℕ)
    (h : ¬ ((closes hd).filter validPrice).length < 50) :
    generatePredictions th sq rand hd days =
      (List.range' (Nat.max 50 (hd.length - days))
          (hd.length - Nat.max 50 (hd.length - days))).foldl
        (gpStep th sq rand hd ((closes hd).filter validPrice)) [] := by
  simp only [generatePredictions]
  rw [if_neg h]

/-- The failing input for C3/C8: 50 bars whose close is `Infinity` followed
by 51 valid bars.  With `days = 60` the first backtest index is 50, whose
prefix contains no valid close, so the predictor's validation fallback
returns the last close — `Infinity` — verbatim, and the loop's
`!isNaN(predicted) && predicted > 0` guard does not reject it. -/
def cxBars : List Bar := List.replicate 50 (wBar .inf) ++ List.replicate 51 (wBar (.num 100))

theorem gp_cxBars : ∃ conf t, generatePredictions id id (fun _ => 0) cxBars 60 =
    ⟨"d", .num 100, .inf, conf⟩ :: t := by
  obtain ⟨conf, hconf⟩ :
      ∃ conf, gpStep id id (fun _ => 0) cxBars ((closes cxBars).filter validPrice) [] 50
        = [⟨"d", .num 100, .inf, conf⟩] := ⟨_, rfl⟩
  rw [generatePredictions_eq id id (fun _ => 0) cxBars 60 (by decide)]
  have hrange : List.range' (Nat.max 50 (cxBars.length - 60))
      (cxBars.length - Nat.max 50 (cxBars.length - 60)) = 50 :: List.range' 51 50 := by
    decide
  rw [hrange, List.foldl_cons, hconf]
  obtain ⟨t, ht⟩ := foldl_gpStep_append id id (fun _ => 0) cxBars
    ((closes cxBars).filter validPrice) (List.range' 51 50) [⟨"d", .num 100, .inf, conf⟩]
  exact ⟨conf, t, by rw [ht]; rfl⟩

/-- C3, theorem at the failing input: `generatePredictions` can emit an
entry whose `predicted` is `Infinity` — non-finite — because the emission
guard checks `isNaN` but not `isFinite`, contradicting the claimed
invariant (the surrounding code filters with `isNaN && isFinite`
everywhere else, so the omission is a slip). -/
theorem claim_C3 : ∃ p ∈ generatePredictions id id (fun _ => 0) cxBars 60,
    p.predicted = JSNum.inf ∧ p.predicted.isFinite = false := by
  obtain ⟨conf, t, ht⟩ := gp_cxBars
  rw [ht]
  exact ⟨_, List.mem_cons_self _ _, rfl, rfl⟩

/-- Modelled from the spec (§4.4) for comparison with the code, with the
skip condition amended to the `isNaN`/positivity test the code performs:
with fewer than 50 valid closes the result is empty; otherwise for each
index `i` from `max(50, length - days)` to `length - 1` the predictor runs
on the strict prefix `series[0..i)` — no lookahead — and is paired with
`actualPrices[i]`; the entry is skipped exactly when either value is `NaN`
or not strictly positive. -/
def specBacktest (th sq : ℚ → ℚ) (rand : ℕ → ℚ) (series : List Bar) (days : ℕ) :
    List (String × JSNum × JSNum) :=
  let actualPrices := (closes series).filter validPrice
  if actualPrices.length < 50 then []
  else
    let start := Nat.max 50 (series.length - days)
    (List.range' start (series.length - start)).filterMap fun i =>
      let predicted := predictNextDay th sq (rand i) (series.take i)
      let actual := jget actualPrices i
      if !actual.isNaN && !predicted.isNaN && JSNum.lt (.num 0) actual &&
          JSNum.lt (.num 0) predicted then
        some ((series.getD i default).date, actual, predicted)
      else none

/-- C8, counterexample to the claim as stated: at `cxBars` with `days = 60`
the first emitted entry has `predicted = Infinity`, which the claimed skip
rule ("skip if either value is non-finite or non-positive") would have
discarded. -/
theorem claim_C8_cx : ∃ e t, generatePredictions id id (fun _ => 0) cxBars 60 = e :: t ∧
    e.predicted = JSNum.inf ∧ e.predicted.isFinite = false := by
  obtain ⟨conf, t, ht⟩ := gp_cxBars
  exact ⟨_, t, ht, rfl, rfl⟩

/-- C8, amended: `generatePredictions` is empty when fewer than 50 valid
closes exist, and otherwise its (date, actual, predicted) projection is
exactly the spec's loop — indices `max(50, length - days)` to `length - 1`,
the predictor run on the strict prefix (no lookahead), paired with
`actualPrices[i]` — with the entry skipped exactly when either value is
`NaN` or not strictly positive (the source tests `isNaN`, not
`isFinite`). -/
theorem claim_C8 (th sq : ℚ → ℚ) (rand : ℕ → ℚ) (series : List Bar) (days : ℕ) :
    (generatePredictions th sq rand series days).map (fun p => (p.date, p.actual, p.predicted))
      = specBacktest th sq rand series days := by
  simp only [generatePredictions, specBacktest]
  by_cases h : ((closes series).filter validPrice).length < 50
  · rw [if_pos h, if_pos h]
    rfl
  · rw [if_neg h, if_neg h]
    generalize List.range' _ _ = l
    suffices H : ∀ (l : List ℕ) (acc : List Prediction),
        ((l.foldl (gpStep th sq rand series ((closes series).filter validPrice)) acc).map
          (fun p => (p.date, p.actual, p.predicted)))
        = acc.map (fun p => (p.date, p.actual, p.predicted)) ++
          l.filterMap (fun i =>
            let predicted := predictNextDay th sq (rand i) (series.take i)
            let actual := jget ((closes series).filter validPrice) i
            if !actual.isNaN && !predicted.isNaN && JSNum.lt (.num 0) actual &&
                JSNum.lt (.num 0) predicted then
              some ((series.getD i default).date, actual, predicted)
            else none) by
      simpa using H l []
    intro l
    induction l with
    | nil => intro acc; simp
    | cons i l ih =>
      intro acc
      rw [List.foldl_cons, List.filterMap_cons]
      simp only [gpStep]
      split
      · rw [ih]
        simp [List.append_assoc]
      · rw [ih]

/-! ### C9: total evaluation and NaN absorption -/

theorem predictFallbackLast_not_nan (data : List Bar) :
    (predictFallbackLast data).isNaN = false := by
  unfold predictFallbackLast
  cases hl : data.getLast? with
  | none => rfl
  | some b =>
    show (if b.close.truthy = true then b.close else JSNum.num 100).isNaN = false
    by_cases ht : b.close.truthy = true
    · rw [if_pos ht]
      cases hb : b.close <;> simp_all [JSNum.truthy, JSNum.isNaN]
    · rw [if_neg ht]
      rfl

theorem jget_last_mem {l : List JSNum} (h : l ≠ []) : jget l (l.length - 1) ∈ l := by
  have hlt : l.length - 1 < l.length := by
    have := List.length_pos.mpr h
    omega
  rw [jget, List.getD_eq_getElem?_getD, List.getElem?_eq_getElem hlt]
  exact List.getElem_mem hlt

theorem JSNum.max_not_nan {a b : JSNum} (ha : a.isNaN = false) (hb : b.isNaN = false) :
    (JSNum.max a b).isNaN = false := by
  cases a with
  | nan => exact absurd ha (by simp [JSNum.isNaN])
  | num qa =>
    cases b with
    | nan => exact absurd hb (by simp [JSNum.isNaN])
    | num qb =>
      show (if JSNum.lt (.num qa) (.num qb) = true then JSNum.num qb else .num qa).isNaN = false
      split <;> rfl
    | inf =>
      show (if JSNum.lt (.num qa) .inf = true then JSNum.inf else .num qa).isNaN = false
      split <;> rfl
    | ninf =>
      show (if JSNum.lt (.num qa) .ninf = true then JSNum.ninf else .num qa).isNaN = false
      split <;> rfl
  | inf =>
    cases b with
    | nan => exact absurd hb (by simp [JSNum.isNaN])
    | num qb =>
      show (if JSNum.lt .inf (.num qb) = true then JSNum.num qb else .inf).isNaN = false
      split <;> rfl
    | inf =>
      show (if JSNum.lt .inf .inf = true then JSNum.inf else .inf).isNaN = false
      split <;> rfl
    | ninf =>
      show (if JSNum.lt .inf .ninf = true then JSNum.ninf else .inf).isNaN = false
      split <;> rfl
  | ninf =>
    cases b with
    | nan => exact absurd hb (by simp [JSNum.isNaN])
    | num qb =>
      show (if JSNum.lt .ninf (.num qb) = true then JSNum.num qb else .ninf).isNaN = false
      split <;> rfl
    | inf =>
      show (if JSNum.lt .ninf .inf = true then JSNum.inf else .ninf).isNaN = false
      split <;> rfl
    | ninf =>
      show (if JSNum.lt .ninf .ninf = true then JSNum.ninf else .ninf).isNaN = false
      split <;> rfl

/-- The predictor's value is never `NaN`, whatever the input series: both
fallbacks guard `NaN` away and the main arm evaluates to a finite number. -/
theorem predictNextDay_not_nan (th sq : ℚ → ℚ) (r : ℚ) (data : List Bar) :
    (predictNextDay th sq r data).isNaN = false := by
  by_cases h : data.length < 50
  · simp only [predictNextDay, if_pos h]
    cases hl : data.getLast? with
    | none => simp [JSNum.truthy, JSNum.isNaN]
    | some b =>
      simp only []
      by_cases ht : (b.close.truthy && !b.close.isNaN) = true
      · rw [if_pos ht]
        exact Bool.not_eq_true' .. |>.mp (Bool.and_eq_true .. |>.mp ht).2
      · rw [if_neg ht]
        rfl
  · simp only [predictNextDay, if_neg h]
    by_cases hv : validateData ((closes data).filter validPrice) = true
    · simp only [hv, Bool.not_true, Bool.false_eq_true, if_false]
      obtain ⟨hne, hall⟩ := validateData_spec hv
      obtain ⟨c, hc, hc0⟩ := hall _ (jget_last_mem hne)
      have hguard : (!(jget ((closes data).filter validPrice)
            (((closes data).filter validPrice).length - 1)).truthy ||
          (jget ((closes data).filter validPrice)
            (((closes data).filter validPrice).length - 1)).isNaN ||
          JSNum.le (jget ((closes data).filter validPrice)
            (((closes data).filter validPrice).length - 1)) (.num 0)) = false := by
        rw [hc]
        simp [JSNum.truthy, JSNum.isNaN, JSNum.le, hc0.ne', not_le.mpr hc0]
      rw [hguard]
      simp only [Bool.false_eq_true, if_false]
      obtain ⟨p, hp, -, -⟩ := predictCore_band th sq r ((closes data).filter validPrice)
        ((volumesOf data).filter validVolume) c hc hc0
      rw [hp]
      rfl
    · simp only [Bool.not_eq_true] at hv
      simp only [hv, Bool.not_false, if_true]
      exact predictFallbackLast_not_nan data

/-- Every entry the backtest loop ever holds passed its emission guard. -/
theorem gp_foldl_guard (th sq : ℚ → ℚ) (rand : ℕ → ℚ) (hd : List Bar) (ap : List JSNum)
    (l : List ℕ) :
    ∀ acc : List Prediction,
      (∀ p ∈ acc, (!p.actual.isNaN && !p.predicted.isNaN && JSNum.lt (.num 0) p.actual &&
        JSNum.lt (.num 0) p.predicted) = true) →
      ∀ p ∈ l.foldl (gpStep th sq rand hd ap) acc,
        (!p.actual.isNaN && !p.predicted.isNaN && JSNum.lt (.num 0) p.actual &&
          JSNum.lt (.num 0) p.predicted) = true := by
  induction l with
  | nil => exact fun acc hacc p hp => hacc p hp
  | cons i l ih =>
    intro acc hacc p hp
    rw [List.foldl_cons] at hp
    refine ih _ ?_ p hp
    intro q hq
    revert hq
    simp only [gpStep]
    split
    · intro hq
      rcases List.mem_append.mp hq with hq | hq
      · exact hacc q hq
      · simp only [List.mem_singleton] at hq
        subst hq
        next hcond => simpa using hcond
    · intro hq
      exact hacc q hq

theorem scoreStock_targetPrice_not_nan (th sq : ℚ → ℚ) (r : ℚ) (symbol : String)
    (data : List Bar) : (scoreStock th sq r symbol data).targetPrice.isNaN = false := by
  by_cases h : data.length < 50
  · simp only [scoreStock, if_pos h]
    cases hl : data.getLast? with
    | none => simp [JSNum.truthy, JSNum.isNaN]
    | some b =>
      simp only []
      by_cases ht : (b.close.truthy && !b.close.isNaN) = true
      · rw [if_pos ht]
        exact Bool.not_eq_true' .. |>.mp (Bool.and_eq_true .. |>.mp ht).2
      · rw [if_neg ht]
        rfl
  · simp only [scoreStock, if_neg h]
    by_cases hv : validateData ((closes data).filter validPrice) = true
    · simp only [hv, Bool.not_true, Bool.false_eq_true, if_false]
      exact JSNum.max_not_nan (predictNextDay_not_nan th sq r data) rfl
    · simp only [Bool.not_eq_true] at hv
      simp only [hv, Bool.not_false, if_true]
      rfl

/-- C9, counterexample: a single bar whose close is `Infinity`.
`predictNextDay` returns `Infinity` — the numeric degeneracy propagates to
the output instead of being absorbed by a finite fallback (the short-history
guard checks truthiness and `isNaN` but not `isFinite`). -/
theorem claim_C9_cx :
    predictNextDay id id 0 [wBar .inf] = JSNum.inf ∧ JSNum.inf.isFinite = false := by
  exact ⟨by decide, rfl⟩

/-- C9, amended: all three public functions are total (the embedding
evaluates on every input, including empty, short, `NaN`, infinite, zero or
negative series — JavaScript raises no exception on these paths), and `NaN`
never propagates to an output: `predictNextDay` is never `NaN`, every
backtest entry has non-`NaN`, strictly positive `actual` and `predicted`,
and every recommendation's target price is non-`NaN`.  Infinite (and
negative) closes, however, can propagate verbatim through the last-close
fallback, as the counterexample shows. -/
theorem claim_C9 (th sq : ℚ → ℚ) (r : ℚ) (rand : ℕ → ℚ) (data : List Bar) (days : ℕ)
    (stocks : List (String × List Bar)) :
    (predictNextDay th sq r data).isNaN = false ∧
    ((generatePredictions th sq rand data days).all fun p =>
      !p.actual.isNaN && !p.predicted.isNaN && JSNum.lt (.num 0) p.actual &&
        JSNum.lt (.num 0) p.predicted) = true ∧
    ((generateInvestmentRecommendations th sq rand stocks).all fun rcm =>
      !rcm.targetPrice.isNaN) = true := by
  refine ⟨predictNextDay_not_nan th sq r data, ?_, ?_⟩
  · rw [List.all_eq_true]
    intro p hp
    revert hp
    simp only [generatePredictions]
    split
    · intro hp
      exact absurd hp (List.not_mem_nil p)
    · exact fun hp => gp_foldl_guard th sq rand data _ _ [] (by simp) p hp
  · rw [List.all_eq_true]
    intro rcm hrcm
    have hmem : rcm ∈ (stocks.enum.map fun p => scoreStock th sq (rand p.1) p.2.1 p.2.2) :=
      (List.mem_insertionSort recLE).mp
        (show rcm ∈ List.insertionSort recLE
            (stocks.enum.map fun p => scoreStock th sq (rand p.1) p.2.1 p.2.2) from hrcm)
    obtain ⟨q, hq, rfl⟩ := List.mem_map.mp hmem
    simpa using scoreStock_targetPrice_not_nan th sq (rand q.1) q.2.1 q.2.2

end StockGuru
